import Mathlib

/-
Verification of the observation-compression, session-lifecycle and
search-ranking core of the iconic-memory session recorder
(src/iconic-memory-ui/src/App.tsx).

JavaScript numbers are modelled as exact rationals (for the Jaccard
similarity and the compression threshold) and as real numbers (for the
search ranker, whose L2 normalisation takes a square root).  JavaScript
strings are Lean strings; `String.prototype.toLowerCase` is modelled on
its ASCII fragment.
-/

set_option autoImplicit false
set_option maxRecDepth 4000

namespace IconicMemory

/-- The character class matched by the JavaScript regexp `\s`
(whitespace and line terminators). -/
def isJsSpace (c : Char) : Bool :=
  c == ' ' || c == '\t' || c == '\n' || c == '\r' || c == '\x0b' || c == '\x0c' ||
  c == '\u00A0' || c == '\u1680' ||
  (decide ('\u2000' ≤ c) && decide (c ≤ '\u200A')) ||
  c == '\u2028' || c == '\u2029' || c == '\u202F' || c == '\u205F' ||
  c == '\u3000' || c == '\uFEFF'

/-- Model of `String.prototype.toLowerCase`, restricted to its ASCII fragment
(the source only feeds it screen-capture text and search queries). -/
def jsToLower (s : String) : String :=
  String.mk (s.toList.map Char.toLower)

/-- Worker for `jsSplitWs`.  `prevWs` records whether the previous character
belonged to the current whitespace run (so a maximal run produces a single
split), `acc` is the reversed current field. -/
def jsSplitWsAux : Bool → List Char → List Char → List (List Char)
  | _, acc, [] => [acc.reverse]
  | prevWs, acc, c :: cs =>
    if isJsSpace c then
      if prevWs then jsSplitWsAux true acc cs
      else acc.reverse :: jsSplitWsAux true [] cs
    else jsSplitWsAux false (c :: acc) cs

/-- Model of `s.split(/\s+/)` in JavaScript: split at maximal whitespace runs.
A leading (resp. trailing) run contributes an empty first (resp. last)
field, and the empty string yields the singleton list `[""]` — the
splitter never returns an empty list. -/
def jsSplitWs (s : String) : List String :=
  (jsSplitWsAux false [] s.toList).map fun cs => String.mk cs

/-- Model of `String.prototype.trim`: drop leading and trailing `\s` characters. -/
def jsTrim (s : String) : String :=
  String.mk (((s.toList.dropWhile isJsSpace).reverse.dropWhile isJsSpace).reverse)

/-- Model of `new Set(list)` in JavaScript: deduplicate keeping the first occurrence
of every element (insertion order). -/
def setOfList (l : List String) : List String :=
  l.foldl (fun acc x => if acc.contains x then acc else acc ++ [x]) []

/-- Model of `hay.includes(needle)` on JavaScript strings. -/
def listStartsWith : List Char → List Char → Bool
  | [], _ => true
  | _ :: _, [] => false
  | a :: as, b :: bs => a == b && listStartsWith as bs

/-- Substring test used by the error classifier
(`JSON.stringify(err).includes(...)`). -/
def strContains (hay needle : String) : Bool :=
  hay.toList.tails.any fun t => listStartsWith needle.toList t

/-- The function `calculateJaccardSimilarity` (App.tsx lines 35–41): lower-case both
strings, split on whitespace runs into token sets, and return
`|intersection| / |union|`, with a `union.size === 0` guard returning 0. -/
def calculateJaccardSimilarity (str1 str2 : String) : ℚ :=
  let set1 := setOfList (jsSplitWs (jsToLower str1))
  let set2 := setOfList (jsSplitWs (jsToLower str2))
  let inter := set1.filter fun x => set2.contains x
  let union := setOfList (set1 ++ set2)
  if union.length = 0 then 0 else (inter.length : ℚ) / (union.length : ℚ)

/-- A raw payload delivered by the vision collaborator.
`strResult s` models a payload object whose `result` field is the string
`s` (the branch `typeof obs.result.result === 'string'`); `nonString json
coerced` models every other payload, where `json` is `JSON.stringify` of
the whole payload and `coerced = some t` exactly when the payload is a
truthy object whose `result` field is truthy, with `t` its string
coercion (used only for the live display). -/
inductive ObsResult where
  | strResult (s : String)
  | nonString (json : String) (coerced : Option String)
deriving DecidableEq

/-- An `Observation` (`{ ts, result }`): timestamp in epoch milliseconds
plus the raw payload. -/
structure Observation where
  ts : Int
  result : ObsResult
deriving DecidableEq

/-- The text derived from an observation inside `compressObservations`:
`typeof obs.result.result === 'string' ? obs.result.result :
JSON.stringify(obs.result)`. -/
def obsText (o : Observation) : String :=
  match o.result with
  | .strResult s => s
  | .nonString json _ => json

/-- A `CompressedEvent` (App.tsx lines 12–18). -/
structure CompressedEvent where
  description : String
  startTime : Int
  endTime : Int
  durationSec : ℚ
  count : Nat
deriving DecidableEq

/-- The streak opened at a fresh observation:
`{ description: text, startTime: ts, endTime: ts, durationSec: 0, count: 1 }`. -/
def newStreak (text : String) (ts : Int) : CompressedEvent :=
  { description := text, startTime := ts, endTime := ts, durationSec := 0, count := 1 }

/-- One iteration of the `for (const obs of raw)` loop of
`compressObservations`: the state is the pair of the emitted events and
the open streak (`compressed`, `current`). -/
def compressStep (threshold : ℚ)
    (st : List CompressedEvent × Option CompressedEvent) (obs : Observation) :
    List CompressedEvent × Option CompressedEvent :=
  let text := obsText obs
  match st.2 with
  | none => (st.1, some (newStreak text obs.ts))
  | some current =>
    if threshold ≤ calculateJaccardSimilarity current.description text then
      (st.1, some { current with
        endTime := obs.ts
        count := current.count + 1
        durationSec := ((obs.ts - current.startTime : Int) : ℚ) / 1000 })
    else
      (st.1 ++ [current], some (newStreak text obs.ts))

/-- The epilogue `if (current) compressed.push(current)`. -/
def finalizeCompression
    (st : List CompressedEvent × Option CompressedEvent) : List CompressedEvent :=
  match st.2 with
  | none => st.1
  | some current => st.1 ++ [current]

/-- The function `compressObservations` (App.tsx lines 44–74): single forward pass
collapsing consecutive observations whose text is similar to the open
streak's (fixed) anchor description. -/
def compressObservations (raw : List Observation) (threshold : ℚ) : List CompressedEvent :=
  if raw.length = 0 then []
  else finalizeCompression (raw.foldl (compressStep threshold) ([], none))

/-! ### Summary-highlight parsing (`generateSessionSummary`, App.tsx lines 77–117) -/

/-- Worker for the model of `content.split("\n")`: split at every newline; the empty string yields
`[""]`, a trailing newline yields a trailing empty field. -/
def splitOnNewlinesAux : List Char → List Char → List String
  | acc, [] => [String.mk acc.reverse]
  | acc, c :: cs =>
    if c = '\n' then String.mk acc.reverse :: splitOnNewlinesAux [] cs
    else splitOnNewlinesAux (c :: acc) cs

/-- Model of `content.split("\n")` on a string. -/
def splitOnNewlines (s : String) : List String :=
  splitOnNewlinesAux [] s.toList

/-- The character class of the marker regexp `/^[\*\-\•\d\.]+\s*/`:
bullets, dashes, digits and dots. -/
def isMarkerChar (c : Char) : Bool :=
  c == '*' || c == '-' || c == '•' || c == '.' || c.isDigit

/-- Model of `line.replace(/^[\*\-\•\d\.]+\s*/, "").trim()`: if the line starts
with at least one marker character, drop that marker run and the
whitespace run following it; then trim the result.  (With no leading
marker character the regexp does not match and only `trim` applies.) -/
def stripHighlightLine (line : String) : String :=
  let cs := line.toList
  let afterMarks := cs.dropWhile isMarkerChar
  let replaced := if afterMarks.length = cs.length then cs else afterMarks.dropWhile isJsSpace
  jsTrim (String.mk replaced)

/-- The fixed fallback returned from the `catch` block of
`generateSessionSummary`. -/
def fallbackHighlights : List String :=
  ["Failed to generate AI summary", "Check console for details", "Raw data saved"]

/-- The success-path parsing of `generateSessionSummary`:
`content.split("\n").map(strip marker + trim).filter(line.length > 5).slice(0, 3)`. -/
def parseHighlights (content : String) : List String :=
  (((splitOnNewlines content).map stripHighlightLine).filter fun l =>
    decide (5 < l.length)).take 3

/-- The function `generateSessionSummary`, with the HTTP transport abstracted: an
`Except.ok content` input models a response whose extracted content string
(`data.choices?.[0]?.message?.content || ""`) is `content`; `Except.error`
models any transport or parse failure reaching the `catch` block. -/
def generateSessionSummary (response : Except Unit String) : List String :=
  match response with
  | .ok content => parseHighlights content
  | .error _ => fallbackHighlights

/-! ### Sessions and the search ranker (App.tsx lines 150–205, 447–471) -/

/-- A `Session` record (App.tsx lines 20–30). -/
structure Session where
  id : String
  title : String
  description : Option String
  startedAt : Int
  endedAt : Int
  tags : List String
  highlights : List String
  rawObservations : Option (List Observation)
  compressedLog : Option (List CompressedEvent)
deriving DecidableEq

/-- The function `tokenizeText` (App.tsx lines 150–156): lower-case, replace every
character outside `[a-z0-9\s]` by a space, split on whitespace runs and
drop empty fields (`filter(Boolean)`). -/
def tokenizeText (input : String) : List String :=
  (((jsSplitWsAux false []
      ((jsToLower input).toList.map fun c =>
        if (decide ('a' ≤ c) && decide (c ≤ 'z')) || (decide ('0' ≤ c) && decide (c ≤ '9'))
            || isJsSpace c then c else ' ')).map
    fun cs => String.mk cs).filter fun t => t ≠ "")

/-- Model of `tf.set(t, (tf.get(t) || 0) + 1)` on a JavaScript `Map` modelled as an
insertion-ordered association list. -/
def mapBump (m : List (String × Nat)) (k : String) : List (String × Nat) :=
  if m.any (fun p => p.1 == k) then
    m.map fun p => if p.1 == k then (p.1, p.2 + 1) else p
  else m ++ [(k, 1)]

/-- The function `textToTfVector` (App.tsx lines 158–169): raw token counts,
L2-normalized; `Math.sqrt(norm) || 1` falls back to 1 exactly when the
squared norm is 0. -/
noncomputable def textToTfVector (input : String) : List (String × ℝ) :=
  let tf := (tokenizeText input).foldl mapBump []
  let norm2 : Nat := (tf.map fun p => p.2 * p.2).sum
  let norm : ℝ := if norm2 = 0 then 1 else Real.sqrt norm2
  tf.map fun p => (p.1, (p.2 : ℝ) / norm)

/-- Model of `large.get(k)` on the modelled `Map`. -/
def mapFind (m : List (String × ℝ)) (k : String) : Option ℝ :=
  (m.find? fun p => p.1 == k).map fun p => p.2

open Classical in
/-- The function `cosineFromTf` (App.tsx lines 171–180): dot product iterating the
smaller vector, skipping falsy weights (`if (w)`), clamped into `[0, 1]`. -/
noncomputable def cosineFromTf (a b : List (String × ℝ)) : ℝ :=
  let sl := if a.length < b.length then (a, b) else (b, a)
  let dot := sl.1.foldl
    (fun d p =>
      match mapFind sl.2 p.1 with
      | some w => if w = 0 then d else d + p.2 * w
      | none => d) 0
  max 0 (min 1 dot)

/-- The function `sessionSearchText` (App.tsx lines 182–192): title, optional
description, joined highlights when non-empty, and the descriptions of the
first 12 compressed-log events when present, joined by `" \n"`. -/
def sessionSearchText (s : Session) : String :=
  String.intercalate " \n"
    ([s.title]
      ++ (match s.description with | some d => [d] | none => [])
      ++ (if s.highlights.length ≠ 0 then [String.intercalate " " s.highlights] else [])
      ++ (match s.compressedLog with
          | some l =>
            if l.length ≠ 0 then [String.intercalate " " ((l.take 12).map fun e => e.description)]
            else []
          | none => []))

/-- Model of `m.set(k, v)` on a JavaScript `Map`: overwrite in place, else append. -/
def mapSet (m : List (String × ℝ)) (k : String) (v : ℝ) : List (String × ℝ) :=
  if m.any (fun p => p.1 == k) then
    m.map fun p => if p.1 == k then (p.1, v) else p
  else m ++ [(k, v)]

/-- The memo `similarityById` (App.tsx lines 447–457): the empty map for a
blank-after-trim query, otherwise one cosine score per session, keyed by
session id. -/
noncomputable def similarityById (sessions : List Session) (query : String) :
    List (String × ℝ) :=
  if jsTrim query = "" then []
  else
    sessions.foldl
      (fun m s =>
        mapSet m s.id (cosineFromTf (textToTfVector (jsTrim query))
          (textToTfVector (sessionSearchText s))))
      []

/-- Model of `similarityById.get(s.id) ?? 0`. -/
noncomputable def mapGetD (m : List (String × ℝ)) (k : String) (d : ℝ) : ℝ :=
  match m.find? fun p => p.1 == k with
  | some p => p.2
  | none => d

/-- The score the best-match loop reads for a session
(`similarityById.get(s.id) ?? 0`). -/
noncomputable def sessionScore (sessions : List Session) (query : String) (s : Session) : ℝ :=
  mapGetD (similarityById sessions query) s.id 0

open Classical in
/-- The body of the best-match loop of `topMatchId`
(`if (sc > best) { best = sc; bestId = s.id; }`). -/
noncomputable def bestStep (f : Session → ℝ) (st : ℝ × Option String) (s : Session) :
    ℝ × Option String :=
  if st.1 < f s then (f s, some s.id) else st

/-- The memo `topMatchId` (App.tsx lines 459–471): `null` on a blank-after-trim
query, otherwise the id of the session with the strictly best score so
far, starting from `best = -1`, `bestId = null`. -/
noncomputable def topMatchId (sessions : List Session) (query : String) : Option String :=
  if jsTrim query = "" then none
  else (sessions.foldl (bestStep (sessionScore sessions query)) (-1, none)).2

/-! ### The capture state machine (`useOvershootSession`, App.tsx lines 208–324) -/

/-- The controller state of `useOvershootSession`: the React `status` and
`latestObservation` states, the `retryCount`, `observationsRef`,
`previewStreamRef`, `patchedRef` and `visionRef` refs, plus a counter of
`getDisplayMedia` acquisitions (to reason about double-acquisition). -/
structure CaptureState where
  status : String
  retryCount : Nat
  observations : List Observation
  latestObservation : String
  previewStreamHeld : Bool
  patched : Bool
  visionHeld : Bool
  streamAcquisitions : Nat
deriving DecidableEq

/-- The environment of a `startSession` call: whether `getDisplayMedia`
exists, whether stream acquisition resolves, whether the Overshoot API key
is present (`createRealtimeVision` throws without it) and whether
`vision.start()` resolves. -/
structure CaptureEnv where
  displayMediaSupported : Bool
  streamAcquireOk : Bool
  visionKeyOk : Bool
  visionStartOk : Bool
deriving DecidableEq

/-- The function `restoreGetUserMedia` (App.tsx lines 244–251). -/
def restoreGetUserMedia (st : CaptureState) : CaptureState :=
  if st.patched then { st with patched := false } else st

/-- The `catch` block of `startSession`: restore the patch, set status
`"Error"`, report failure. -/
def startFailure (st : CaptureState) : CaptureState × Bool :=
  ({ restoreGetUserMedia st with status := "Error" }, false)

/-- The function `startSession` (App.tsx lines 253–304) as a state transformer
returning the session state plus the boolean success result.  Awaits are
serialized; each possible throw site of the `try` block is driven by the
corresponding `CaptureEnv` flag. -/
def startSession (env : CaptureEnv) (st : CaptureState) : CaptureState × Bool :=
  if st.status = "Recording" then (st, true)
  else
    let st1 := { st with
      status := if 0 < st.retryCount then "Reconnecting..." else "Initializing..." }
    let st2 := if st1.retryCount = 0 then { st1 with observations := [] } else st1
    if ¬ env.displayMediaSupported then startFailure st2
    else if ¬ st2.previewStreamHeld ∧ ¬ env.streamAcquireOk then startFailure st2
    else
      let st3 :=
        if st2.previewStreamHeld then st2
        else { st2 with
          previewStreamHeld := true
          streamAcquisitions := st2.streamAcquisitions + 1 }
      let st4 := if st3.patched then st3 else { st3 with patched := true }
      if ¬ env.visionKeyOk then startFailure st4
      else
        let st5 := { st4 with visionHeld := true }
        if ¬ env.visionStartOk then startFailure st5
        else ({ st5 with status := "Recording" }, true)

/-- The `onResult` observation handler (App.tsx lines 268–275): reset the
retry counter, append the observation, and update the live display when
the payload is a truthy object with a truthy `result` field. -/
def onVisionResult (now : Int) (r : ObsResult) (st : CaptureState) : CaptureState :=
  { st with
    retryCount := 0
    observations := st.observations ++ [{ ts := now, result := r }]
    latestObservation :=
      match r with
      | .strResult s => if s = "" then st.latestObservation else s
      | .nonString _ coerced =>
        match coerced with
        | some t => t
        | none => st.latestObservation }

/-- The transient-error classifier of the `onError` handler:
`JSON.stringify(err).includes("stream_not_found") ||
JSON.stringify(err).includes("404")`, where `err` is modelled by its
serialization. -/
def isStreamNotFoundError (err : String) : Bool :=
  strContains err "stream_not_found" || strContains err "404"

/-- The `onError` handler (App.tsx lines 276–291): on a transient
stream error with the retry counter below the cap of 3, increment the
counter and schedule a reconnect (the returned boolean); otherwise set the
`"Connection Lost"` status and the warning message.  The scheduled
reconnect itself never touches the retry counter (only `onResult` resets
it). -/
def onConnectionError (err : String) (st : CaptureState) : CaptureState × Bool :=
  if isStreamNotFoundError err ∧ st.retryCount < 3 then
    ({ st with retryCount := st.retryCount + 1 }, true)
  else
    ({ st with
        status := "Connection Lost"
        latestObservation := "⚠️ Connection to Vision Model lost." }, false)

/-- The function `stopSession` (App.tsx lines 306–321): reset the retry counter, close
the vision connection and release the stream (both best-effort), restore
the `getUserMedia` patch, return to `"Ready"` and hand back a copy of the
observation buffer.  The model is a total function: every teardown error
is swallowed by the source (`.catch(() => {})`), so no exception escapes. -/
def stopSession (st : CaptureState) : CaptureState × List Observation :=
  let st1 := { st with retryCount := 0, status := "Stopping..." }
  let st2 := if st1.visionHeld then { st1 with visionHeld := false } else st1
  let st3 := if st2.previewStreamHeld then { st2 with previewStreamHeld := false } else st2
  let st4 := restoreGetUserMedia st3
  let st5 := { st4 with status := "Ready", latestObservation := "" }
  (st5, st5.observations)

/-- The controller state right after `useOvershootSession` is mounted:
`status = "Ready"`, no refs held, empty buffer. -/
def initialCaptureState : CaptureState :=
  { status := "Ready", retryCount := 0, observations := [], latestObservation := ""
    previewStreamHeld := false, patched := false, visionHeld := false
    streamAcquisitions := 0 }

/-- A state in the middle of a healthy recording with a fresh retry
counter: status `"Recording"`, stream acquired once, patch installed,
vision connection held. -/
def recordingState : CaptureState :=
  { status := "Recording", retryCount := 0, observations := [], latestObservation := ""
    previewStreamHeld := true, patched := true, visionHeld := true
    streamAcquisitions := 1 }

/-- A serialized transient connection error of the stream-not-found /
404 class. -/
def streamErrMsg : String := "Error 404: stream_not_found"

/-- One transient-error event applied to the controller state. -/
def streamErrStep (st : CaptureState) : CaptureState :=
  (onConnectionError streamErrMsg st).1

/-- An environment in which every external operation succeeds. -/
def allOkEnv : CaptureEnv :=
  { displayMediaSupported := true, streamAcquireOk := true
    visionKeyOk := true, visionStartOk := true }

/-! ### Concrete inputs used by examples, witnesses and counterexamples -/

/-- The three observations of the worked example of the spec:
`(0, "build A"), (1000, "build A"), (5000, "deploy B")`. -/
def c3Input : List Observation :=
  [{ ts := 0, result := .strResult "build A" },
   { ts := 1000, result := .strResult "build A" },
   { ts := 5000, result := .strResult "deploy B" }]

/-- A one-observation list (`"x"` at time 0). -/
def ceObsA : List Observation := [{ ts := 0, result := .strResult "x" }]

/-- Three observations whose compression alone yields a single streak
anchored at `"x y"`. -/
def ceObsB : List Observation :=
  [{ ts := 1, result := .strResult "x y" },
   { ts := 2, result := .strResult "y" },
   { ts := 3, result := .strResult "x y z" }]

/-- A one-observation list used by witnesses (`"alpha"` at time 0). -/
def singletonObs : List Observation := [{ ts := 0, result := .strResult "alpha" }]

/-- A sample session record, as seeded by the UI. -/
def demoSession : Session :=
  { id := "s-104", title := "Deep work: sprint planning notes", description := none
    startedAt := 0, endedAt := 3600000, tags := ["docs", "planning"]
    highlights := ["Summarized stakeholder inputs"], rawObservations := none
    compressedLog := none }

/-- The single event produced by compressing `singletonObs`. -/
def singletonEvent : CompressedEvent :=
  { description := "alpha", startTime := 0, endTime := 0, durationSec := 0, count := 1 }

/-- The invariant of a well-formed `CompressedEvent`. -/
def eventInvariant (e : CompressedEvent) : Prop :=
  e.startTime ≤ e.endTime ∧ 1 ≤ e.count ∧
    e.durationSec = ((e.endTime - e.startTime : Int) : ℚ) / 1000



/-! ## Helper lemmas -/

/-- The guard `if (raw.length === 0) return []` is redundant: the fold on
an empty list already finalizes to the empty output. -/
theorem compress_eq_fold (raw : List Observation) (t : ℚ) :
    compressObservations raw t
      = finalizeCompression (raw.foldl (compressStep t) ([], none)) := by
  cases raw with
  | nil => rfl
  | cons o rest =>
    simp [compressObservations]

/-- Each loop iteration grows the finalized output by at most one event. -/
theorem finalize_compressStep_length (t : ℚ)
    (st : List CompressedEvent × Option CompressedEvent) (o : Observation) :
    (finalizeCompression (compressStep t st o)).length
      ≤ (finalizeCompression st).length + 1 := by
  obtain ⟨acc, cur⟩ := st
  cases cur with
  | none => simp [compressStep, finalizeCompression]
  | some c =>
    by_cases h : t ≤ calculateJaccardSimilarity c.description (obsText o)
    · simp [compressStep, finalizeCompression, h]
    · simp [compressStep, finalizeCompression, h]

/-- Folding a list over the compression step grows the finalized output
by at most the number of observations consumed. -/
theorem compress_length_fold (t : ℚ) (raw : List Observation) :
    ∀ st : List CompressedEvent × Option CompressedEvent,
      (finalizeCompression (raw.foldl (compressStep t) st)).length
        ≤ (finalizeCompression st).length + raw.length := by
  induction raw with
  | nil => intro st; simp
  | cons o rest ih =>
    intro st
    rw [List.foldl_cons]
    have h1 := ih (compressStep t st o)
    have h2 := finalize_compressStep_length t st o
    simp only [List.length_cons]
    omega

/-- Each loop iteration adds exactly one to the total occurrence count of
the finalized output. -/
theorem finalize_compressStep_count (t : ℚ)
    (st : List CompressedEvent × Option CompressedEvent) (o : Observation) :
    ((finalizeCompression (compressStep t st o)).map fun e => e.count).sum
      = ((finalizeCompression st).map fun e => e.count).sum + 1 := by
  obtain ⟨acc, cur⟩ := st
  cases cur with
  | none => simp [compressStep, finalizeCompression, newStreak]
  | some c =>
    by_cases h : t ≤ calculateJaccardSimilarity c.description (obsText o)
    · simp only [compressStep, finalizeCompression, h, if_true, List.map_append,
        List.sum_append, List.map_cons, List.map_nil, List.sum_cons, List.sum_nil]
      omega
    · simp only [compressStep, finalizeCompression, newStreak, h, if_false,
        List.map_append, List.sum_append, List.map_cons, List.map_nil,
        List.sum_cons, List.sum_nil]
      omega

/-- Folding a list over the compression step adds its length to the total
occurrence count of the finalized output. -/
theorem compress_count_fold (t : ℚ) (raw : List Observation) :
    ∀ st : List CompressedEvent × Option CompressedEvent,
      ((finalizeCompression (raw.foldl (compressStep t) st)).map fun e => e.count).sum
        = ((finalizeCompression st).map fun e => e.count).sum + raw.length := by
  induction raw with
  | nil => intro st; simp
  | cons o rest ih =>
    intro st
    rw [List.foldl_cons]
    have h1 := ih (compressStep t st o)
    have h2 := finalize_compressStep_count t st o
    simp only [List.length_cons]
    omega

/-- The state invariant of the compression loop: every emitted event and
the open streak are well-formed, and the open streak started no later than
any remaining observation. -/
theorem compress_fold_invariant (t : ℚ) (raw : List Observation) :
    ∀ (acc : List CompressedEvent) (cur : Option CompressedEvent),
      raw.Pairwise (fun a b => a.ts ≤ b.ts) →
      (∀ e ∈ acc, eventInvariant e) →
      (∀ c, cur = some c → eventInvariant c ∧ ∀ o ∈ raw, c.startTime ≤ o.ts) →
      ∀ e ∈ finalizeCompression (raw.foldl (compressStep t) (acc, cur)),
        eventInvariant e := by
  induction raw with
  | nil =>
    intro acc cur _ hacc hcur e he
    cases cur with
    | none => exact hacc e he
    | some c =>
      simp only [List.foldl_nil, finalizeCompression, List.mem_append,
        List.mem_singleton] at he
      rcases he with h | h
      · exact hacc e h
      · exact h ▸ (hcur c rfl).1
  | cons o rest ih =>
    intro acc cur hsort hacc hcur
    rw [List.foldl_cons]
    rw [List.pairwise_cons] at hsort
    cases cur with
    | none =>
      refine ih acc (some (newStreak (obsText o) o.ts)) hsort.2 hacc ?_
      intro c hc
      rw [Option.some.injEq] at hc
      subst hc
      refine ⟨⟨le_refl _, le_refl _, ?_⟩, fun o2 ho2 => hsort.1 o2 ho2⟩
      simp [newStreak]
    | some c =>
      have hc := hcur c rfl
      have hco : c.startTime ≤ o.ts := hc.2 o (List.mem_cons_self o rest)
      by_cases h : t ≤ calculateJaccardSimilarity c.description (obsText o)
      · simp only [compressStep, h, if_true]
        refine ih acc (some _) hsort.2 hacc ?_
        intro c2 hc2
        rw [Option.some.injEq] at hc2
        subst hc2
        exact ⟨⟨hco, le_trans hc.1.2.1 (Nat.le_succ _), rfl⟩,
          fun o2 ho2 => hc.2 o2 (List.mem_cons_of_mem o ho2)⟩
      · simp only [compressStep, h, if_false]
        refine ih (acc ++ [c]) (some (newStreak (obsText o) o.ts)) hsort.2 ?_ ?_
        · intro e he
          rcases List.mem_append.1 he with h2 | h2
          · exact hacc e h2
          · rw [List.mem_singleton] at h2
            exact h2 ▸ hc.1
        · intro c2 hc2
          rw [Option.some.injEq] at hc2
          subst hc2
          refine ⟨⟨le_refl _, le_refl _, ?_⟩, fun o2 ho2 => hsort.1 o2 ho2⟩
          simp [newStreak]

/-- Folding the `Set`-builder keeps a non-empty accumulator non-empty. -/
theorem setOfList_foldl_ne_nil (l : List String) :
    ∀ acc : List String, acc ≠ [] →
      l.foldl (fun acc x => if acc.contains x then acc else acc ++ [x]) acc ≠ [] := by
  induction l with
  | nil => intro acc h; exact h
  | cons x xs ih =>
    intro acc h
    rw [List.foldl_cons]
    by_cases hx : acc.contains x
    · simp only [hx, if_true]
      exact ih acc h
    · simp only [hx, if_false]
      refine ih (acc ++ [x]) ?_
      simp

/-- Building a `Set` from a non-empty list is non-empty. -/
theorem setOfList_ne_nil (l : List String) (h : l ≠ []) : setOfList l ≠ [] := by
  cases l with
  | nil => exact absurd rfl h
  | cons x xs =>
    rw [setOfList, List.foldl_cons]
    refine setOfList_foldl_ne_nil xs (if List.contains [] x then [] else [] ++ [x]) ?_
    simp

/-- The `\s+`-splitter never returns an empty list of fields. -/
theorem jsSplitWsAux_ne_nil (cs : List Char) :
    ∀ (prevWs : Bool) (acc : List Char), jsSplitWsAux prevWs acc cs ≠ [] := by
  induction cs with
  | nil => intro prevWs acc; simp [jsSplitWsAux]
  | cons c cs ih =>
    intro prevWs acc
    simp only [jsSplitWsAux]
    by_cases h : isJsSpace c
    · simp only [h, if_true]
      cases prevWs
      · simp
      · simpa using ih true acc
    · simp only [h, if_false]
      exact ih false (c :: acc)




/-! ## Claim theorems about the compressor and the similarity scorer -/

/-- C3: on the observations `(0, "build A"), (1000, "build A"),
(5000, "deploy B")` with threshold 0.6, `compressObservations` returns
exactly the two events `("build A", 0, 1000, 1 s, ×2)` and
`("deploy B", 5000, 5000, 0 s, ×1)`. -/
theorem compress_spec_example :
    compressObservations c3Input (3/5)
      = [{ description := "build A", startTime := 0, endTime := 1000,
           durationSec := 1, count := 2 },
         { description := "deploy B", startTime := 5000, endTime := 5000,
           durationSec := 0, count := 1 }] := by
  have hs1 : ((3:ℚ)/5 ≤ calculateJaccardSimilarity "build A" "build A") = True :=
    eq_true (by with_unfolding_all decide)
  have hs2 : ((3:ℚ)/5 ≤ calculateJaccardSimilarity "build A" "deploy B") = False :=
    eq_false (by with_unfolding_all decide)
  simp only [compressObservations, c3Input, List.foldl, compressStep, obsText,
    newStreak, finalizeCompression, hs1, hs2, if_true, if_false]
  norm_num

/-- C1 fails as stated: with threshold 1/2 the inputs `ceObsA` (one
observation `"x"`) and `ceObsB` (a single streak `"x y"`, `"y"`,
`"x y z"`) compress to 1 event each, but their sorted concatenation
compresses to 3 events — the boundary merge re-anchors the streak at
ated`"x"` and the rest of `ceObsB` splits. -/
theorem compress_concat_split_counterexample :
    (ceObsA ++ ceObsB).Pairwise (fun a b => a.ts ≤ b.ts)
    ∧ (0:ℚ) ≤ 1/2 ∧ (1/2:ℚ) ≤ 1
    ∧ ¬ ((compressObservations (ceObsA ++ ceObsB) (1/2)).length
          ≤ (compressObservations ceObsA (1/2)).length
            + (compressObservations ceObsB (1/2)).length) := by
  have hs1 : ((1:ℚ)/2 ≤ calculateJaccardSimilarity "x" "x y") = True :=
    eq_true (by with_unfolding_all decide)
  have hs2 : ((1:ℚ)/2 ≤ calculateJaccardSimilarity "x" "y") = False :=
    eq_false (by with_unfolding_all decide)
  have hs3 : ((1:ℚ)/2 ≤ calculateJaccardSimilarity "y" "x y z") = False :=
    eq_false (by with_unfolding_all decide)
  have hs4 : ((1:ℚ)/2 ≤ calculateJaccardSimilarity "x y" "y") = True :=
    eq_true (by with_unfolding_all decide)
  have hs5 : ((1:ℚ)/2 ≤ calculateJaccardSimilarity "x y" "x y z") = True :=
    eq_true (by with_unfolding_all decide)
  refine ⟨by decide, by with_unfolding_all decide, by with_unfolding_all decide, ?_⟩
  rw [compress_eq_fold, compress_eq_fold, compress_eq_fold]
  simp only [ceObsA, ceObsB, List.cons_append, List.nil_append, List.foldl,
    compressStep, obsText, newStreak, finalizeCompression,
    hs1, hs2, hs3, hs4, hs5, if_true, if_false]
  simp

/-- C1 amended: compressing a sorted concatenation can yield more events
than the sum of the separate compressions (the boundary merge can
re-anchor and split the second part's streaks); what holds is the bound by
the first part's compression plus the raw length of the second part. -/
theorem compress_concat_length_bound (A B : List Observation) (t : ℚ)
    (_hsort : (A ++ B).Pairwise (fun a b => a.ts ≤ b.ts)) (_h0 : 0 ≤ t) (_h1 : t ≤ 1) :
    (compressObservations (A ++ B) t).length
      ≤ (compressObservations A t).length + B.length := by
  rw [compress_eq_fold, compress_eq_fold, List.foldl_append]
  exact compress_length_fold t B _

/-- Witness for the amended C1 bound at a concrete sorted input. -/
theorem compress_concat_length_bound_witness :
    (compressObservations (singletonObs ++ singletonObs) 1).length
      ≤ (compressObservations singletonObs 1).length + singletonObs.length :=
  compress_concat_length_bound singletonObs singletonObs 1 (by decide) (by decide)
    (by decide)

/-- C4 fails as stated: the JavaScript split of an empty string yields the
one-element list `[""]`, so two empty strings have token sets `{""}` and
the similarity is 1, not 0. -/
theorem jaccard_empty_strings_counterexample :
    calculateJaccardSimilarity "" "" = 1 ∧ calculateJaccardSimilarity "" "" ≠ 0 := by
  with_unfolding_all decide

/-- C4 amended: the whitespace splitter always returns at least one
(possibly empty) token, so the token-set union of any two strings is
non-empty and the union-size-0 guard of `calculateJaccardSimilarity` never
fires on string inputs; in particular two empty strings both tokenize to
the singleton `{""}` and their similarity is 1. -/
theorem jaccard_empty_strings_amended :
    (∀ s : String, jsSplitWs s ≠ [])
    ∧ (∀ s1 s2 : String,
        setOfList (setOfList (jsSplitWs (jsToLower s1))
          ++ setOfList (jsSplitWs (jsToLower s2))) ≠ [])
    ∧ calculateJaccardSimilarity "" "" = 1 := by
  have hsplit : ∀ s : String, jsSplitWs s ≠ [] := by
    intro s
    rw [jsSplitWs]
    simp only [ne_eq, List.map_eq_nil_iff]
    exact jsSplitWsAux_ne_nil _ false []
  refine ⟨hsplit, ?_, by with_unfolding_all decide⟩
  intro s1 s2
  refine setOfList_ne_nil _ ?_
  intro h
  rcases List.append_eq_nil.mp h with ⟨h1, -⟩
  exact setOfList_ne_nil _ (hsplit (jsToLower s1)) h1

/-- C5: on a timestamp-sorted input and a threshold in `[0, 1]`, every
compressed event satisfies `endTime ≥ startTime`, `count ≥ 1` and
`durationSec = (endTime - startTime) / 1000`. -/
theorem compress_event_invariants (raw : List Observation) (t : ℚ)
    (hsort : raw.Pairwise (fun a b => a.ts ≤ b.ts)) (_h0 : 0 ≤ t) (_h1 : t ≤ 1)
    (e : CompressedEvent) (he : e ∈ compressObservations raw t) :
    e.startTime ≤ e.endTime ∧ 1 ≤ e.count ∧
      e.durationSec = ((e.endTime - e.startTime : Int) : ℚ) / 1000 := by
  rw [compress_eq_fold] at he
  exact compress_fold_invariant t raw [] none hsort (by simp) (by simp) e he

/-- Witness for C5 at the compression of a single observation. -/
theorem compress_event_invariants_witness :
    singletonEvent.startTime ≤ singletonEvent.endTime
    ∧ 1 ≤ singletonEvent.count
    ∧ singletonEvent.durationSec
        = ((singletonEvent.endTime - singletonEvent.startTime : Int) : ℚ) / 1000 :=
  compress_event_invariants singletonObs 1 (by decide) (by decide) (by decide)
    singletonEvent (by decide)

/-- C10: for every observation list and threshold in `[0, 1]`, the
occurrence counts of the compressed events sum to the length of the
input — no observation is dropped or double-counted. -/
theorem compress_counts_total (raw : List Observation) (t : ℚ)
    (_h0 : 0 ≤ t) (_h1 : t ≤ 1) :
    ((compressObservations raw t).map fun e => e.count).sum = raw.length := by
  rw [compress_eq_fold]
  have h := compress_count_fold t raw ([], none)
  simpa [finalizeCompression] using h

/-- Witness for C10 at a concrete one-observation input. -/
theorem compress_counts_total_witness :
    ((compressObservations singletonObs 1).map fun e => e.count).sum
      = singletonObs.length :=
  compress_counts_total singletonObs 1 (by decide) (by decide)




/-! ## Claim theorems about the capture state machine -/

/-- C2: starting from a healthy `"Recording"` state with the retry counter
at 0, four consecutive transient (404 / stream-not-found) errors with no
intervening successful observation schedule exactly 3 reconnect attempts
(one per error while the counter is below the cap), drive the counter to
3 and never beyond, and the 4th error switches the status to
`"Connection Lost"`. -/
theorem retry_cap_connection_lost :
    (streamErrStep^[1] recordingState).retryCount = 1
    ∧ (streamErrStep^[2] recordingState).retryCount = 2
    ∧ (streamErrStep^[3] recordingState).retryCount = 3
    ∧ (streamErrStep^[3] recordingState).status = "Recording"
    ∧ (onConnectionError streamErrMsg recordingState).2 = true
    ∧ (onConnectionError streamErrMsg (streamErrStep^[1] recordingState)).2 = true
    ∧ (onConnectionError streamErrMsg (streamErrStep^[2] recordingState)).2 = true
    ∧ (onConnectionError streamErrMsg (streamErrStep^[3] recordingState)).2 = false
    ∧ (streamErrStep^[4] recordingState).status = "Connection Lost"
    ∧ (streamErrStep^[4] recordingState).retryCount = 3
    ∧ ∀ n : ℕ, (streamErrStep^[n] recordingState).retryCount ≤ 3 := by
  have hstep : ∀ st : CaptureState, st.retryCount ≤ 3 → (streamErrStep st).retryCount ≤ 3 := by
    intro st h
    unfold streamErrStep onConnectionError
    split
    · next hc => simp only []; omega
    · next hc => exact h
  refine ⟨by decide, by decide, by decide, by decide, by decide, by decide,
    by decide, by decide, by decide, by decide, ?_⟩
  intro n
  induction n with
  | zero => decide
  | succ n ih =>
    rw [Function.iterate_succ_apply']
    exact hstep _ ih

/-- C6: calling `startSession` while already `"Recording"` is an exact
no-op returning `true`; two consecutive calls both return `true` with the
state unchanged, and no further capture stream is acquired. -/
theorem start_while_recording_noop (env : CaptureEnv) (st : CaptureState)
    (h : st.status = "Recording") :
    startSession env st = (st, true)
    ∧ startSession env (startSession env st).1 = (st, true)
    ∧ (startSession env st).1.streamAcquisitions = st.streamAcquisitions := by
  have h1 : startSession env st = (st, true) := by
    rw [startSession, if_pos h]
  refine ⟨h1, ?_, ?_⟩
  · rw [h1]
    exact h1
  · rw [h1]

/-- Witness for C6 at the concrete recording state with an all-healthy
environment. -/
theorem start_while_recording_noop_witness :
    startSession allOkEnv recordingState = (recordingState, true)
    ∧ startSession allOkEnv (startSession allOkEnv recordingState).1
        = (recordingState, true)
    ∧ (startSession allOkEnv recordingState).1.streamAcquisitions
        = recordingState.streamAcquisitions :=
  start_while_recording_noop allOkEnv recordingState (by decide)

/-- C7: `stopSession` called on the never-started `"Ready"` state returns
the empty observation list and leaves the controller in the `"Ready"`
state; the model is a total function (all teardown is best-effort in the
source), so no exception escapes. -/
theorem stop_from_ready_noop :
    stopSession initialCaptureState = (initialCaptureState, []) := by decide




/-! ## Claim theorems about summary parsing and the search ranker -/

/-- C9: the parsed highlights of any successful summarizer response are at
most 3 lines, every kept line has at least 6 characters, and they are an
initial segment of the marker-stripped, length-filtered lines of the
response; any transport or parse failure yields the fixed 3-line fallback. -/
theorem summary_highlight_parsing :
    (∀ content : String,
        (generateSessionSummary (Except.ok content)).length ≤ 3
        ∧ (∀ l ∈ generateSessionSummary (Except.ok content), 6 ≤ l.length)
        ∧ ∃ rest,
            ((splitOnNewlines content).map stripHighlightLine).filter
                (fun l => decide (5 < l.length))
              = generateSessionSummary (Except.ok content) ++ rest)
    ∧ (∀ e : Unit, generateSessionSummary (Except.error e) = fallbackHighlights)
    ∧ fallbackHighlights.length = 3 := by
  refine ⟨?_, fun e => rfl, rfl⟩
  intro content
  refine ⟨?_, ?_, ?_⟩
  · exact List.length_take_le 3
      (((splitOnNewlines content).map stripHighlightLine).filter
        fun l => decide (5 < l.length))
  · intro l hl
    simp only [generateSessionSummary, parseHighlights] at hl
    have hmem := List.mem_of_mem_take hl
    have hlen := List.of_mem_filter hmem
    have : 5 < l.length := of_decide_eq_true hlen
    omega
  · refine ⟨(((splitOnNewlines content).map stripHighlightLine).filter
        fun l => decide (5 < l.length)).drop 3, ?_⟩
    show _ = parseHighlights content ++ _
    rw [parseHighlights]
    exact (List.take_append_drop 3 _).symm

/-- Witness for C9 at a concrete response content and a failure. -/
theorem summary_highlight_parsing_witness :
    (generateSessionSummary (Except.ok
        "* Reviewed sprint goals\n- ok\n1. Updated the deployment script\nShipped the release notes\nExtra line kept out")).length ≤ 3
    ∧ generateSessionSummary (Except.error ()) = fallbackHighlights :=
  ⟨(summary_highlight_parsing.1
      "* Reviewed sprint goals\n- ok\n1. Updated the deployment script\nShipped the release notes\nExtra line kept out").1,
    summary_highlight_parsing.2.1 ()⟩

/-- The best-match fold over any score function either leaves its initial
state untouched (every score at most the initial best) or returns the
first session whose score strictly exceeds every earlier score and is at
least every later one. -/
theorem bestStep_foldl_spec (f : Session → ℝ) (l : List Session) :
    ∀ (b : ℝ) (o : Option String),
      (l.foldl (bestStep f) (b, o) = (b, o) ∧ ∀ y ∈ l, f y ≤ b)
      ∨ (∃ pre x post, l = pre ++ x :: post
          ∧ l.foldl (bestStep f) (b, o) = (f x, some x.id)
          ∧ b < f x ∧ (∀ y ∈ pre, f y < f x) ∧ (∀ y ∈ post, f y ≤ f x)) := by
  induction l with
  | nil =>
    intro b o
    left
    exact ⟨rfl, by simp⟩
  | cons x t ih =>
    intro b o
    rw [List.foldl_cons]
    by_cases h : b < f x
    · have hstep : bestStep f (b, o) x = (f x, some x.id) := by
        rw [bestStep, if_pos h]
      rw [hstep]
      rcases ih (f x) (some x.id) with ⟨heq, hall⟩ |
        ⟨pre, y, post, hdec, hr, hlt, hpre, hpost⟩
      · right
        exact ⟨[], x, t, rfl, heq, h, by simp, hall⟩
      · right
        refine ⟨x :: pre, y, post, by rw [hdec, List.cons_append], hr, lt_trans h hlt, ?_, hpost⟩
        intro z hz
        rcases List.mem_cons.mp hz with hz | hz
        · exact hz ▸ hlt
        · exact hpre z hz
    · have hstep : bestStep f (b, o) x = (b, o) := by
        rw [bestStep, if_neg h]
      rw [hstep]
      rcases ih b o with ⟨heq, hall⟩ | ⟨pre, y, post, hdec, hr, hlt, hpre, hpost⟩
      · left
        refine ⟨heq, ?_⟩
        intro z hz
        rcases List.mem_cons.mp hz with hz | hz
        · exact hz ▸ le_of_not_lt h
        · exact hall z hz
      · right
        refine ⟨x :: pre, y, post, by rw [hdec, List.cons_append], hr, hlt, ?_, hpost⟩
        intro z hz
        rcases List.mem_cons.mp hz with hz | hz
        · exact hz ▸ lt_of_le_of_lt (le_of_not_lt h) hlt
        · exact hpre z hz

/-- C8: a blank-after-trim query produces no score entries for any session
collection; the best match over no sessions is `none`; and whenever a best
match exists it is the first session whose score strictly exceeds every
earlier session's score and is at least every later one (argmax with
first-encountered tie-breaking). -/
theorem search_ranker_spec :
    (∀ (sessions : List Session) (q : String),
        jsTrim q = "" → similarityById sessions q = [])
    ∧ (∀ q : String, topMatchId ([] : List Session) q = none)
    ∧ (∀ (sessions : List Session) (q : String),
        topMatchId sessions q = none
        ∨ ∃ pre x post, sessions = pre ++ x :: post
            ∧ topMatchId sessions q = some x.id
            ∧ (∀ y ∈ pre, sessionScore sessions q y < sessionScore sessions q x)
            ∧ (∀ y ∈ post, sessionScore sessions q y ≤ sessionScore sessions q x)) := by
  refine ⟨?_, ?_, ?_⟩
  · intro sessions q h
    rw [similarityById, if_pos h]
  · intro q
    by_cases h : jsTrim q = ""
    · rw [topMatchId, if_pos h]
    · rw [topMatchId, if_neg h]
      rfl
  · intro sessions q
    by_cases h : jsTrim q = ""
    · left
      rw [topMatchId, if_pos h]
    · rcases bestStep_foldl_spec (sessionScore sessions q) sessions (-1) none with
        ⟨heq, -⟩ | ⟨pre, x, post, hdec, hr, -, hpre, hpost⟩
      · left
        rw [topMatchId, if_neg h, heq]
      · right
        exact ⟨pre, x, post, hdec, by rw [topMatchId, if_neg h, hr], hpre, hpost⟩

/-- Witness for C8: a whitespace-only query over a non-empty collection
produces no scores, and no sessions produce no best match. -/
theorem search_ranker_spec_witness :
    similarityById [demoSession] " " = []
    ∧ topMatchId ([] : List Session) "planning" = none :=
  ⟨search_ranker_spec.1 [demoSession] " " (by decide),
    search_ranker_spec.2.1 "planning"⟩

end IconicMemory
